import Mathlib

/-!
Shallow embedding of the multi-provider speech-synthesis orchestrator in
`app/tts copy.py` (`synthesize` and its four provider adapters), together
with theorems settling the specification claims about it.

Byte strings are modelled as `List Nat`, text as `List Char`.  External
backends (edge-tts, ElevenLabs, gTTS, pyttsx3) are abstracted as injected
functions returning `Option` results: `none` models an exception or a
missing/empty output file where the code distinguishes them, as noted at
each adapter.  Sleeps are recorded as rational durations instead of being
performed.  The placeholder generator's `try/except` is modelled by a
generator parameter of type `Option`, instantiated with the real generator
in `synthesize`.
-/

namespace TTS

/-- Byte strings. -/
abbrev Bytes := List Nat

/-- Python `str.strip()` on the input text: drop whitespace from both ends
(`text = text.strip()`, line 27). -/
def pstrip (s : List Char) : List Char :=
  ((s.dropWhile Char.isWhitespace).reverse.dropWhile Char.isWhitespace).reverse

/-! ### Streaming neural adapter (`try_edge_tts`, lines 39-98) -/

/-- The constant `attempts = 3` (line 69). -/
def edgeAttemptsBound : Nat := 3

/-- The constant `base_delay = 0.6` seconds (line 70), as an exact rational. -/
def baseDelay : ℚ := 6/10

/-- Outcome of one edge-tts backend call, as observed by the adapter's loop
body (lines 76-91): `none` models an exception (`WSServerHandshakeError` or
generic) or a missing output file, `some []` an empty output file; only a
non-empty file yields a usable result (`os.path.getsize(temp_path) > 0`). -/
def edgeStep (r : Option Bytes) : Option Bytes :=
  match r with
  | some bs => if bs = [] then none else some bs
  | none => none

/-- One run of the edge-tts adapter: the returned result, how many backend
attempts were made, and the list of back-off sleeps performed between
attempts, in order. -/
structure EdgeRun where
  result : Option (Bytes × String)
  attemptsMade : Nat
  sleeps : List ℚ
deriving DecidableEq

/-- The retry loop of `try_edge_tts` (lines 71-93): `fuel` counts the
remaining iterations of `for attempt in range(1, attempts + 1)` and
`attempt` is the current 1-based attempt number.  On success the loop
returns `(audio_data, "audio/mpeg")`; otherwise, when further attempts
remain (`attempt < attempts`), it sleeps `base_delay * attempt` and
retries. -/
def edgeLoop (backend : Nat → Option Bytes) : Nat → Nat → EdgeRun
  | 0, _ => ⟨none, 0, []⟩
  | fuel + 1, attempt =>
    match edgeStep (backend attempt) with
    | some bs => ⟨some (bs, "audio/mpeg"), 1, []⟩
    | none =>
      if fuel = 0 then ⟨none, 1, []⟩
      else
        let rest := edgeLoop backend fuel (attempt + 1)
        ⟨rest.result, rest.attemptsMade + 1, baseDelay * (attempt : ℚ) :: rest.sleeps⟩

/-- The edge-tts adapter (lines 39-98): up to 3 attempts starting at
attempt 1; returns `none` (`Absent`) when all fail. -/
def try_edge_tts (backend : Nat → Option Bytes) : EdgeRun :=
  edgeLoop backend edgeAttemptsBound 1

/-! ### HTTP-chunked adapter (`try_gtts`, lines 100-132) -/

/-- The constant `max_chunk = 400` (line 104). -/
def maxChunk : Nat := 400

/-- Body of the chunking loop of `try_gtts` (lines 105-110): repeatedly
take the first `K` characters until the text is exhausted.  The recursion
is kept structural through a fuel argument; with `fuel ≥ s.length` and
`K ≠ 0` (the code always uses `K = max_chunk = 400`) the fuel never runs
out and this is exactly the Python `while remaining:` loop. -/
def chunkTextAux (K : Nat) : Nat → List Char → List (List Char)
  | _, [] => []
  | 0, _ :: _ => []
  | fuel + 1, c :: cs => (c :: cs).take K :: chunkTextAux K fuel ((c :: cs).drop K)

/-- The chunking loop of `try_gtts` (lines 105-110), with enough fuel. -/
def chunkText (K : Nat) (s : List Char) : List (List Char) :=
  chunkTextAux K s.length s

lemma chunkTextAux_nil (K fuel : Nat) : chunkTextAux K fuel [] = [] := by
  cases fuel <;> rfl

lemma chunkTextAux_congr (K : Nat) (hK : K ≠ 0) :
    ∀ (fuel : Nat) (s : List Char), s.length ≤ fuel →
      ∀ (fuel' : Nat), s.length ≤ fuel' →
      chunkTextAux K fuel s = chunkTextAux K fuel' s := by
  intro fuel
  induction fuel with
  | zero =>
    intro s hs fuel' _
    have : s = [] := List.length_eq_zero.mp (Nat.le_zero.mp hs)
    subst this
    rw [chunkTextAux_nil, chunkTextAux_nil]
  | succ f ih =>
    intro s hs fuel' hs'
    match s with
    | [] => rw [chunkTextAux_nil, chunkTextAux_nil]
    | c :: cs =>
      match fuel' with
      | 0 => exact absurd hs' (by simp)
      | g + 1 =>
        show (c :: cs).take K :: chunkTextAux K f ((c :: cs).drop K) =
          (c :: cs).take K :: chunkTextAux K g ((c :: cs).drop K)
        have hK' : 1 ≤ K := Nat.one_le_iff_ne_zero.mpr hK
        have hf : ((c :: cs).drop K).length ≤ f := by
          rw [List.length_drop]
          simp only [List.length_cons] at hs ⊢
          omega
        have hg : ((c :: cs).drop K).length ≤ g := by
          rw [List.length_drop]
          simp only [List.length_cons] at hs' ⊢
          omega
        rw [ih ((c :: cs).drop K) hf g hg]

lemma chunkText_step (K : Nat) (s : List Char) (hK : K ≠ 0) (hs : s ≠ []) :
    chunkText K s = s.take K :: chunkText K (s.drop K) := by
  match s with
  | c :: cs =>
    show chunkTextAux K (cs.length + 1) (c :: cs) = _
    rw [show chunkTextAux K (cs.length + 1) (c :: cs) =
      (c :: cs).take K :: chunkTextAux K cs.length ((c :: cs).drop K) from rfl]
    congr 1
    exact chunkTextAux_congr K hK cs.length ((c :: cs).drop K)
      (by rw [List.length_drop]; simp only [List.length_cons]; omega)
      ((c :: cs).drop K).length (le_refl _)

/-- Sequences a list of per-chunk backend results: `none` as soon as any
chunk's call raised, modelling that an exception mid-chunk abandons the
whole attempt. -/
def seqOption {α : Type} : List (Option α) → Option (List α)
  | [] => some []
  | none :: _ => none
  | some a :: rest => (seqOption rest).map (a :: ·)

/-- Core of `try_gtts`, with the chunk size as a parameter: split the text
into pieces, synthesize each piece, and join the byte streams in order
(`audio_data = b"".join(...)`, line 119); an empty joined result is
reported as `Absent` (`if audio_data:`, line 125). -/
def gttsCore (K : Nat) (backend : List Char → Option Bytes) (text : List Char) :
    Option (Bytes × String) :=
  match seqOption ((chunkText K text).map backend) with
  | none => none
  | some segs => if segs.flatten = [] then none else some (segs.flatten, "audio/mpeg")

/-- The gTTS adapter (lines 100-132), at the code's chunk size 400. -/
def try_gtts (backend : List Char → Option Bytes) (text : List Char) :
    Option (Bytes × String) :=
  gttsCore maxChunk backend text

/-! ### Offline-engine adapter (`try_pyttsx3`, lines 134-163) -/

/-- The pyttsx3 adapter: `none` models an exception or a missing file,
`some []` an empty file; only a non-empty file is returned, as
`"audio/wav"` (lines 147-151). -/
def try_pyttsx3 (backend : Option Bytes) : Option (Bytes × String) :=
  match backend with
  | some bs => if bs = [] then none else some (bs, "audio/wav")
  | none => none

/-! ### Premium cloud adapter (`try_elevenlabs`, lines 165-206) -/

/-- The ElevenLabs adapter: with no API key configured (`if not api_key`,
line 171, an empty string counts as unset) it skips without calling the
backend; otherwise an exception or an empty stream (`buf if buf else None`,
line 194, and `if audio_bytes:`, line 201) yields `Absent`, a non-empty
stream is returned as `"audio/mpeg"`. -/
def try_elevenlabs (apiKey : String) (backend : Option Bytes) :
    Option (Bytes × String) :=
  if apiKey = "" then none
  else
    match backend with
    | some bs => if bs = [] then none else some (bs, "audio/mpeg")
    | none => none

/-- The injected external backends for one `synthesize` call: the results
the external services would produce for this call's text and language. -/
structure Backends where
  edge : Nat → Option Bytes
  elevenKey : String
  eleven : Option Bytes
  gtts : List Char → Option Bytes
  pyttsx3 : Option Bytes

/-! ### Placeholder beep generator (lines 233-259) -/

/-- The constant `sample_rate = 44100` (line 238). -/
def sampleRate : Nat := 44100

/-- The constant `num_samples = int(sample_rate * duration)` with `duration = 0.5`
(line 242). -/
def numSamples : Nat := 22050

/-- Python `int()` applied to a real number: truncation toward zero. -/
noncomputable def pytrunc (y : ℝ) : ℤ := if 0 ≤ y then ⌊y⌋ else ⌈y⌉

/-- Sample amplitude `int(32767 * math.sin(2 * math.pi * frequency * t))`
with `t = i / sample_rate`, `frequency = 440` (lines 246-247). -/
noncomputable def beepAmp (i : Nat) : ℤ :=
  pytrunc (32767 * Real.sin (2 * Real.pi * 440 * ((i : ℝ) / 44100)))

/-- Encoding `struct.pack('<h', v)`: a 16-bit signed integer, little endian. -/
def int16LE (v : ℤ) : Bytes :=
  [(v % 65536).toNat % 256, (v % 65536).toNat / 256]

/-- A 16-bit unsigned integer, little endian (`struct` format `H`). -/
def u16LE (n : Nat) : Bytes := [n % 256, n / 256 % 256]

/-- A 32-bit unsigned integer, little endian (`struct` format `I`). -/
def u32LE (n : Nat) : Bytes :=
  [n % 256, n / 256 % 256, n / 65536 % 256, n / 16777216 % 256]

/-- A fixed 4-byte ASCII tag (`struct` format `4s`). -/
def asciiBytes (s : String) : Bytes := s.toList.map Char.toNat

/-- Decode a little-endian byte string back to the number it holds. -/
def leVal (bs : Bytes) : Nat := bs.foldr (fun b acc => b + 256 * acc) 0

/-- The 44-byte WAV header built at lines 252-255:
`pack('<4sI4s', b'RIFF', 36 + len(samples)*2, b'WAVE')`,
`pack('<4sIHHIIHH', b'fmt ', 16, 1, 1, sample_rate, sample_rate*2, 2, 16)`,
`pack('<4sI', b'data', len(samples)*2)`. -/
def wavHeader (nsamp : Nat) : Bytes :=
  asciiBytes "RIFF" ++ u32LE (36 + nsamp * 2) ++ asciiBytes "WAVE" ++
  asciiBytes "fmt " ++ u32LE 16 ++ u16LE 1 ++ u16LE 1 ++ u32LE sampleRate ++
  u32LE (sampleRate * 2) ++ u16LE 2 ++ u16LE 16 ++
  asciiBytes "data" ++ u32LE (nsamp * 2)

/-- The placeholder beep: header followed by the packed samples
(`audio_data = wav_header + b''.join(samples)`, line 257). -/
noncomputable def beepBytes : Bytes :=
  wavHeader numSamples ++ ((List.range numSamples).map (fun i => int16LE (beepAmp i))).flatten

/-! ### Orchestrator (`synthesize`, lines 13-266) -/

/-- The fixed terminal error message `error_msg` (line 264). -/
def runtimeErrorMessage : String :=
  "All TTS providers failed. Please install edge-tts: pip install edge-tts"

/-- The failure signals of `synthesize`: the empty-input sentinel return
`(None, "", "", [], False)` (line 32), carrying its (empty) attempt log,
and the terminal `RuntimeError(error_msg)` (lines 264-266), which carries
only its fixed message string — the code does not attach the attempt log
to it. -/
inductive SynthError where
  | emptyInput (attemptLog : List String)
  | allProvidersExhausted (message : String)
deriving DecidableEq

/-- The result of `synthesize`: the success tuple
`(audio_bytes, mime_type, provider_used, attempted_sequence, beep_generated)`
or a failure signal. -/
inductive SynthResult where
  | ok (audio : Bytes) (mime providerUsed : String) (attemptLog : List String)
      (isPlaceholder : Bool)
  | err (e : SynthError)
deriving DecidableEq

/-- The attempt log carried by a result; the terminal `RuntimeError`
carries none. -/
def SynthResult.attemptLogOf : SynthResult → List String
  | .ok _ _ _ log _ => log
  | .err (.emptyInput log) => log
  | .err (.allProvidersExhausted _) => []

/-- Python `str.lower()`, as ASCII case folding character by character
(all the provider names it is compared against are ASCII). -/
def pylower (s : String) : String := ⟨s.data.map Char.toLower⟩

/-- The selector `requested = (provider or "auto").lower()` (line 37): `None` and the
empty string (falsy in Python) both mean `"auto"`. -/
def requestedOf (provider : Option String) : String :=
  pylower (match provider with
           | none => "auto"
           | some p => if p = "" then "auto" else p)

/-- The provider sequence selection (lines 208-218): a recognized name
selects exactly that adapter; anything else gets the auto ordering
edge-tts, then ElevenLabs, then gTTS, then pyttsx3.  Each entry pairs the
adapter's name (`__name__.replace("try_", "")`, line 222) with its
result. -/
def adapterSeq (B : Backends) (text : List Char) (requested : String) :
    List (String × Option (Bytes × String)) :=
  if requested = "edge" then [("edge_tts", (try_edge_tts B.edge).result)]
  else if requested = "gtts" then [("gtts", try_gtts B.gtts text)]
  else if requested = "pyttsx3" then [("pyttsx3", try_pyttsx3 B.pyttsx3)]
  else if requested = "elevenlabs" then
    [("elevenlabs", try_elevenlabs B.elevenKey B.eleven)]
  else
    [("edge_tts", (try_edge_tts B.edge).result),
     ("elevenlabs", try_elevenlabs B.elevenKey B.eleven),
     ("gtts", try_gtts B.gtts text),
     ("pyttsx3", try_pyttsx3 B.pyttsx3)]

/-- The attempt loop (lines 220-227): append each adapter's name to the
log before its result is inspected; the first `Success` terminates the
sequence. -/
def runSeq : List (String × Option (Bytes × String)) → List String →
    Option (Bytes × String × String) × List String
  | [], log => (none, log)
  | (name, res) :: rest, log =>
    match res with
    | some (bs, mime) => (some (bs, mime, name), log ++ [name])
    | none => runSeq rest (log ++ [name])

/-- The orchestrator `synthesize`, with the placeholder generator abstracted: `beepGen =
none` models the `except` branch at line 260 (placeholder generation
itself raised), `beepGen = some _` the normal `try` branch.  The language
normalization `(lang or "en").lower()` (line 28) only feeds the voice
table and the backend calls, which are abstracted into `Backends`, so it
does not appear here. -/
def synthesizeWith (B : Backends) (beepGen : Option (Bytes × String))
    (text : List Char) (lang : String) (provider : Option String) : SynthResult :=
  if pstrip text = [] then .err (.emptyInput [])
  else
    match runSeq (adapterSeq B (pstrip text) (requestedOf provider)) [] with
    | (some (bs, mime, name), log) => .ok bs mime name log false
    | (none, log) =>
      match beepGen with
      | some (bs, mime) => .ok bs mime "beep" log true
      | none => .err (.allProvidersExhausted runtimeErrorMessage)

/-- The orchestrator `synthesize` (lines 13-266), with the real placeholder generator. -/
noncomputable def synthesize (B : Backends) (text : List Char) (lang : String)
    (provider : Option String) : SynthResult :=
  synthesizeWith B (some (beepBytes, "audio/wav")) text lang provider

/-- The adapter name a recognized provider hint selects. -/
def hintAdapterName (r : String) : String :=
  if r = "edge" then "edge_tts" else r

/-- The four recognized provider hints (lines 209-216). -/
def recognizedHints : List String := ["edge", "gtts", "pyttsx3", "elevenlabs"]

/-- The adapter names of the auto ordering, in order. -/
def autoNames : List String := ["edge_tts", "elevenlabs", "gtts", "pyttsx3"]

/-! ### Basic lemmas about the attempt loop -/

lemma runSeq_all_none :
    ∀ (seq : List (String × Option (Bytes × String))) (log : List String),
      (∀ e ∈ seq, e.2 = none) → runSeq seq log = (none, log ++ seq.map Prod.fst)
  | [], log, _ => by simp [runSeq]
  | (name, res) :: rest, log, h => by
    have hres : res = none := h (name, res) (by simp)
    subst hres
    simp only [runSeq, List.map_cons]
    rw [runSeq_all_none rest (log ++ [name]) (fun e he => h e (by simp [he]))]
    simp

lemma runSeq_first_success :
    ∀ (pre : List (String × Option (Bytes × String))) (name : String) (bs : Bytes)
      (mime : String) (post : List (String × Option (Bytes × String))) (log : List String),
      (∀ e ∈ pre, e.2 = none) →
      runSeq (pre ++ (name, some (bs, mime)) :: post) log =
        (some (bs, mime, name), log ++ pre.map Prod.fst ++ [name])
  | [], name, bs, mime, post, log, _ => by simp [runSeq]
  | (n, r) :: pre, name, bs, mime, post, log, h => by
    have hr : r = none := h (n, r) (by simp)
    subst hr
    show runSeq (pre ++ (name, some (bs, mime)) :: post) (log ++ [n]) = _
    rw [runSeq_first_success pre name bs mime post (log ++ [n])
      (fun e he => h e (by simp [he]))]
    simp

lemma runSeq_none_inv :
    ∀ (seq : List (String × Option (Bytes × String))) (log r : List String),
      runSeq seq log = (none, r) →
      (∀ e ∈ seq, e.2 = none) ∧ r = log ++ seq.map Prod.fst
  | [], log, r, h => by
    simp [runSeq] at h
    simp [h]
  | (n, res) :: rest, log, r, h => by
    match res with
    | some (bs, mime) => simp [runSeq] at h
    | none =>
      have := runSeq_none_inv rest (log ++ [n]) r (by simpa [runSeq] using h)
      refine ⟨fun e he => ?_, by simp [this.2]⟩
      rcases List.mem_cons.mp he with h1 | h1
      · simp [h1]
      · exact this.1 e h1

lemma runSeq_some_inv :
    ∀ (seq : List (String × Option (Bytes × String))) (log : List String)
      (bs : Bytes) (mime name : String) (r : List String),
      runSeq seq log = (some (bs, mime, name), r) → (name, some (bs, mime)) ∈ seq
  | [], log, bs, mime, name, r, h => by simp [runSeq] at h
  | (n, res) :: rest, log, bs, mime, name, r, h => by
    match res with
    | some (b, m) =>
      simp only [runSeq, Prod.mk.injEq, Option.some.injEq] at h
      obtain ⟨⟨hb, hm, hn⟩, -⟩ := h
      subst hb; subst hm; subst hn
      simp
    | none =>
      exact List.mem_cons_of_mem _ (runSeq_some_inv rest (log ++ [n]) bs mime name r
        (by simpa [runSeq] using h))

/-! ### Adapters never succeed with empty bytes -/

lemma edgeStep_some {r : Option Bytes} {bs : Bytes} (h : edgeStep r = some bs) : bs ≠ [] := by
  match r with
  | none => simp [edgeStep] at h
  | some b =>
    by_cases hb : b = [] <;> simp [edgeStep, hb] at h
    subst h; exact hb

lemma edgeLoop_success_ne_nil :
    ∀ (fuel attempt : Nat) (backend : Nat → Option Bytes) (bs : Bytes) (mime : String),
      (edgeLoop backend fuel attempt).result = some (bs, mime) → bs ≠ []
  | 0, _, backend, bs, mime, h => by simp [edgeLoop] at h
  | fuel + 1, attempt, backend, bs, mime, h => by
    simp only [edgeLoop] at h
    match hst : edgeStep (backend attempt) with
    | some b =>
      rw [hst] at h
      simp only [Option.some.injEq, Prod.mk.injEq] at h
      obtain ⟨hb, -⟩ := h
      subst hb
      exact edgeStep_some hst
    | none =>
      rw [hst] at h
      by_cases hf : fuel = 0
      · simp [hf] at h
      · simp only [hf, if_false] at h
        exact edgeLoop_success_ne_nil fuel (attempt + 1) backend bs mime h

lemma try_edge_tts_success_ne_nil {backend : Nat → Option Bytes} {bs : Bytes} {mime : String}
    (h : (try_edge_tts backend).result = some (bs, mime)) : bs ≠ [] :=
  edgeLoop_success_ne_nil _ _ _ _ _ h

lemma gttsCore_success_ne_nil {K : Nat} {backend : List Char → Option Bytes}
    {text : List Char} {bs : Bytes} {mime : String}
    (h : gttsCore K backend text = some (bs, mime)) : bs ≠ [] := by
  unfold gttsCore at h
  match hs : seqOption ((chunkText K text).map backend) with
  | none => rw [hs] at h; simp at h
  | some segs =>
    rw [hs] at h
    by_cases hj : segs.flatten = [] <;> simp [hj] at h
    obtain ⟨hb, -⟩ := h
    subst hb
    exact hj

lemma try_pyttsx3_success_ne_nil {backend : Option Bytes} {bs : Bytes} {mime : String}
    (h : try_pyttsx3 backend = some (bs, mime)) : bs ≠ [] := by
  match backend with
  | none => simp [try_pyttsx3] at h
  | some b =>
    by_cases hb : b = []
    · simp [try_pyttsx3, hb] at h
    · simp only [try_pyttsx3, if_neg hb, Option.some.injEq, Prod.mk.injEq] at h
      obtain ⟨h1, -⟩ := h
      subst h1; exact hb

lemma try_elevenlabs_success_ne_nil {apiKey : String} {backend : Option Bytes}
    {bs : Bytes} {mime : String}
    (h : try_elevenlabs apiKey backend = some (bs, mime)) : bs ≠ [] := by
  by_cases hk : apiKey = ""
  · simp [try_elevenlabs, hk] at h
  · match backend with
    | none => simp [try_elevenlabs, hk] at h
    | some b =>
      by_cases hb : b = []
      · simp [try_elevenlabs, hk, hb] at h
      · simp only [try_elevenlabs, if_neg hk, if_neg hb, Option.some.injEq,
          Prod.mk.injEq] at h
        obtain ⟨h1, -⟩ := h
        subst h1; exact hb

lemma adapterSeq_success_ne_nil {B : Backends} {t : List Char} {r : String}
    {e : String × Option (Bytes × String)} (he : e ∈ adapterSeq B t r)
    {bs : Bytes} {mime : String} (hres : e.2 = some (bs, mime)) : bs ≠ [] := by
  have hmem : e = ("edge_tts", (try_edge_tts B.edge).result) ∨
      e = ("elevenlabs", try_elevenlabs B.elevenKey B.eleven) ∨
      e = ("gtts", try_gtts B.gtts t) ∨
      e = ("pyttsx3", try_pyttsx3 B.pyttsx3) := by
    unfold adapterSeq at he
    split_ifs at he <;> simp_all
  rcases hmem with he' | he' | he' | he' <;> rw [he'] at hres
  · exact try_edge_tts_success_ne_nil hres
  · exact try_elevenlabs_success_ne_nil hres
  · exact gttsCore_success_ne_nil hres
  · exact try_pyttsx3_success_ne_nil hres

/-! ### Length of the placeholder audio -/

lemma int16LE_length (v : ℤ) : (int16LE v).length = 2 := rfl

lemma wavHeader_length : (wavHeader numSamples).length = 44 := by decide

lemma beepSamples_length :
    (((List.range numSamples).map (fun i => int16LE (beepAmp i))).flatten).length
      = 2 * numSamples := by
  rw [List.length_flatten, List.map_map]
  have h : (List.length ∘ fun i => int16LE (beepAmp i)) = fun _ => 2 := by
    funext i; rfl
  rw [h, List.map_const', List.sum_replicate, List.length_range, smul_eq_mul,
    Nat.mul_comm]

lemma beepBytes_length : beepBytes.length = 44144 := by
  unfold beepBytes
  rw [List.length_append, wavHeader_length, beepSamples_length]
  norm_num [numSamples]

lemma beepBytes_ne_nil : beepBytes ≠ [] := by
  intro h
  have := beepBytes_length
  rw [h] at this
  simp at this

/-! ### Shared concrete instances for the witnesses -/

/-- A backend bundle in which every external service fails on every call. -/
def failingBackends : Backends :=
  ⟨fun _ => none, "", none, fun _ => none, none⟩

/-- A backend bundle in which edge-tts fails but ElevenLabs is configured
and succeeds. -/
def edgeFailBackends : Backends :=
  ⟨fun _ => none, "key", some [7], fun _ => none, none⟩

/-! ### Claim theorems -/

/-- C1: for every input text that is blank or whitespace-only after
trimming, `synthesize` fails with the empty-input signal before any
adapter is invoked (the result does not depend on the backends), and the
attempt log it carries is empty. -/
theorem synthesize_empty_input (B : Backends) (t : List Char) (lang : String)
    (hint : Option String) (h : pstrip t = []) :
    synthesize B t lang hint = .err (.emptyInput []) := by
  unfold synthesize synthesizeWith
  rw [if_pos h]

theorem synthesize_empty_input_witness :
    pstrip [' ', '\t'] = [] ∧
      synthesize failingBackends [' ', '\t'] "en" none = .err (.emptyInput []) :=
  ⟨by decide, synthesize_empty_input failingBackends [' ', '\t'] "en" none (by decide)⟩

/-- C6: given a backend that fails or yields an empty result on every
attempt, the streaming adapter makes exactly 3 attempts, returns `Absent`,
and sleeps `baseDelay * 1` after attempt 1 and `baseDelay * 2` after
attempt 2 (and nothing after the last attempt). -/
theorem edge_retry_bound (backend : Nat → Option Bytes)
    (hfail : ∀ a, backend a = none ∨ backend a = some []) :
    (try_edge_tts backend).result = none ∧
    (try_edge_tts backend).attemptsMade = 3 ∧
    (try_edge_tts backend).sleeps = [baseDelay * 1, baseDelay * 2] := by
  have h : ∀ a, edgeStep (backend a) = none := fun a => by
    rcases hfail a with ha | ha <;> simp [edgeStep, ha]
  have hrun : try_edge_tts backend = ⟨none, 3, [baseDelay * 1, baseDelay * 2]⟩ := by
    unfold try_edge_tts edgeAttemptsBound
    simp only [edgeLoop, h]
    norm_num
  rw [hrun]
  exact ⟨rfl, rfl, rfl⟩

theorem edge_retry_bound_witness :
    (∀ a : Nat, (fun _ : Nat => (none : Option Bytes)) a = none ∨
        (fun _ : Nat => (none : Option Bytes)) a = some []) ∧
    (try_edge_tts (fun _ => none)).result = none ∧
    (try_edge_tts (fun _ => none)).attemptsMade = 3 ∧
    (try_edge_tts (fun _ => none)).sleeps = [baseDelay * 1, baseDelay * 2] :=
  ⟨fun _ => Or.inl rfl, edge_retry_bound (fun _ => none) (fun _ => Or.inl rfl)⟩

lemma requestedOf_eq_pylower {h : String} (h0 : h ≠ "") :
    requestedOf (some h) = pylower h := by simp [requestedOf, h0]

lemma attemptLog_single (B : Backends) (t : List Char) (lang : String)
    (hint : Option String) (name : String) (res : Option (Bytes × String))
    (ht : pstrip t ≠ [])
    (hseq : adapterSeq B (pstrip t) (requestedOf hint) = [(name, res)]) :
    (synthesize B t lang hint).attemptLogOf = [name] := by
  unfold synthesize synthesizeWith
  rw [if_neg ht, hseq]
  match res with
  | some (bs, mime) => simp [runSeq, SynthResult.attemptLogOf]
  | none => simp [runSeq, SynthResult.attemptLogOf]

/-- C5: when the provider hint names a specific provider, the attempt log
of the returned outcome contains exactly one entry, that provider's
adapter name, whether the attempt succeeded or failed (also when the
placeholder beep is substituted afterwards). -/
theorem specific_hint_single_log (B : Backends) (t : List Char) (lang : String)
    (h : String) (ht : pstrip t ≠ []) (hh : pylower h ∈ recognizedHints) :
    (synthesize B t lang (some h)).attemptLogOf = [hintAdapterName (pylower h)] := by
  have h0 : h ≠ "" := by
    rintro rfl
    revert hh; decide
  have hreq := requestedOf_eq_pylower h0
  simp only [recognizedHints, List.mem_cons, List.not_mem_nil, or_false] at hh
  rcases hh with hh | hh | hh | hh
  · rw [hh]
    exact attemptLog_single B t lang (some h) "edge_tts"
      ((try_edge_tts B.edge).result) ht (by rw [hreq, hh]; rfl)
  · rw [hh]
    exact attemptLog_single B t lang (some h) "gtts"
      (try_gtts B.gtts (pstrip t)) ht (by rw [hreq, hh]; rfl)
  · rw [hh]
    exact attemptLog_single B t lang (some h) "pyttsx3"
      (try_pyttsx3 B.pyttsx3) ht (by rw [hreq, hh]; rfl)
  · rw [hh]
    exact attemptLog_single B t lang (some h) "elevenlabs"
      (try_elevenlabs B.elevenKey B.eleven) ht (by rw [hreq, hh]; rfl)

theorem specific_hint_single_log_witness :
    pstrip ['h', 'i'] ≠ [] ∧ pylower "gtts" ∈ recognizedHints ∧
      (synthesize failingBackends ['h', 'i'] "en" (some "gtts")).attemptLogOf =
        [hintAdapterName (pylower "gtts")] :=
  ⟨by decide, by decide,
    specific_hint_single_log failingBackends ['h', 'i'] "en" "gtts" (by decide) (by decide)⟩

lemma adapterSeq_unrecognized (B : Backends) (t : List Char) (r : String)
    (h1 : r ≠ "edge") (h2 : r ≠ "gtts") (h3 : r ≠ "pyttsx3") (h4 : r ≠ "elevenlabs") :
    adapterSeq B t r = adapterSeq B t "auto" := by
  have hauto : adapterSeq B t "auto" =
      [("edge_tts", (try_edge_tts B.edge).result),
       ("elevenlabs", try_elevenlabs B.elevenKey B.eleven),
       ("gtts", try_gtts B.gtts t),
       ("pyttsx3", try_pyttsx3 B.pyttsx3)] := rfl
  rw [hauto, adapterSeq, if_neg h1, if_neg h2, if_neg h3, if_neg h4]

/-- C2: for every non-blank input, `synthesize` returns either an outcome
with non-empty audio bytes, or the all-providers-exhausted error; it never
returns empty audio bytes without an error. -/
theorem nonblank_nonempty_or_error (B : Backends) (t : List Char) (lang : String)
    (hint : Option String) (ht : pstrip t ≠ []) :
    (∃ bs mime p log ph,
      synthesize B t lang hint = .ok bs mime p log ph ∧ bs ≠ []) ∨
    synthesize B t lang hint = .err (.allProvidersExhausted runtimeErrorMessage) := by
  unfold synthesize synthesizeWith
  rw [if_neg ht]
  rcases hrs : runSeq (adapterSeq B (pstrip t) (requestedOf hint)) [] with ⟨o, log⟩
  match o with
  | some (bs, mime, name) =>
    left
    refine ⟨bs, mime, name, log, false, rfl, ?_⟩
    have hmem := runSeq_some_inv _ _ _ _ _ _ hrs
    exact adapterSeq_success_ne_nil hmem rfl
  | none =>
    left
    exact ⟨beepBytes, "audio/wav", "beep", log, true, rfl, beepBytes_ne_nil⟩

theorem nonblank_nonempty_or_error_witness :
    pstrip ['h', 'i'] ≠ [] ∧
    ((∃ bs mime p log ph,
      synthesize failingBackends ['h', 'i'] "en" none = .ok bs mime p log ph ∧ bs ≠ []) ∨
    synthesize failingBackends ['h', 'i'] "en" none =
      .err (.allProvidersExhausted runtimeErrorMessage)) :=
  ⟨by decide, nonblank_nonempty_or_error failingBackends ['h', 'i'] "en" none (by decide)⟩

/-- C7 counterexample: the terminal error does not carry the attempt log.
Two all-failing runs whose full attempt logs differ — hint "gtts" attempts
only ["gtts"], hint "auto" attempts all four adapters — raise the
identical terminal error, which holds only the fixed message of line 264,
so the raised error cannot be carrying the full attempt log. -/
theorem exhausted_error_no_log :
    (adapterSeq failingBackends (pstrip ['h', 'i'])
      (requestedOf (some "gtts"))).map Prod.fst = ["gtts"] ∧
    (adapterSeq failingBackends (pstrip ['h', 'i'])
      (requestedOf (some "auto"))).map Prod.fst = autoNames ∧
    synthesizeWith failingBackends none ['h', 'i'] "en" (some "gtts") =
      .err (.allProvidersExhausted runtimeErrorMessage) ∧
    synthesizeWith failingBackends none ['h', 'i'] "en" (some "auto") =
      .err (.allProvidersExhausted runtimeErrorMessage) :=
  ⟨by decide, by decide, by decide, by decide⟩

/-- C7 amended: for non-blank input, if every adapter in the selected
sequence reports `Absent` and the placeholder generator itself fails,
`synthesize` raises the terminal `RuntimeError`, which carries only its
fixed message — not the attempt log, which the code loses; conversely this
error only arises when the placeholder generator failed and every adapter
was absent, so it is the only hard-error condition for non-blank input. -/
theorem exhausted_error_fixed_message (B : Backends) (t : List Char) (lang : String)
    (hint : Option String) (ht : pstrip t ≠ []) :
    ((∀ e ∈ adapterSeq B (pstrip t) (requestedOf hint), e.2 = none) →
      synthesizeWith B none t lang hint =
        .err (.allProvidersExhausted runtimeErrorMessage)) ∧
    (∀ beepGen msg,
      synthesizeWith B beepGen t lang hint = .err (.allProvidersExhausted msg) →
      beepGen = none ∧
      (∀ e ∈ adapterSeq B (pstrip t) (requestedOf hint), e.2 = none) ∧
      msg = runtimeErrorMessage) := by
  constructor
  · intro hall
    unfold synthesizeWith
    rw [if_neg ht, runSeq_all_none _ [] hall]
  · intro beepGen msg h
    unfold synthesizeWith at h
    rw [if_neg ht] at h
    rcases hrs : runSeq (adapterSeq B (pstrip t) (requestedOf hint)) [] with ⟨o, l⟩
    rw [hrs] at h
    match o, beepGen with
    | some (bs, mime, name), _ => simp at h
    | none, some (bs, mime) => simp at h
    | none, none =>
      simp only [SynthResult.err.injEq, SynthError.allProvidersExhausted.injEq] at h
      have := runSeq_none_inv _ _ _ hrs
      exact ⟨rfl, this.1, h.symm⟩

theorem exhausted_error_fixed_message_witness :
    pstrip ['h', 'i'] ≠ [] ∧
    (((∀ e ∈ adapterSeq failingBackends (pstrip ['h', 'i']) (requestedOf none),
        e.2 = none) →
      synthesizeWith failingBackends none ['h', 'i'] "en" none =
        .err (.allProvidersExhausted runtimeErrorMessage)) ∧
    (∀ beepGen msg,
      synthesizeWith failingBackends beepGen ['h', 'i'] "en" none =
        .err (.allProvidersExhausted msg) →
      beepGen = none ∧
      (∀ e ∈ adapterSeq failingBackends (pstrip ['h', 'i']) (requestedOf none),
        e.2 = none) ∧
      msg = runtimeErrorMessage)) :=
  ⟨by decide,
    exhausted_error_fixed_message failingBackends ['h', 'i'] "en" none (by decide)⟩

/-- C8: for a chunk size K ≥ 5 and any text of length 3K + 5, the chunking
helper produces exactly 4 ordered pieces, the first three of length K and
the last of length 5, whose concatenation is the original text; and when
every per-piece backend call succeeds, the adapter's output is the
concatenation of the per-piece backend outputs in piece order, so its byte
length is the sum of the per-piece output lengths.  The code's adapter
uses K = maxChunk = 400. -/
theorem chunking_roundtrip (K : Nat) (hK : 5 ≤ K) (s : List Char)
    (hs : s.length = 3 * K + 5) (backend : List Char → Option Bytes) :
    chunkText K s =
      [s.take K, (s.drop K).take K, ((s.drop K).drop K).take K,
        ((s.drop K).drop K).drop K] ∧
    (chunkText K s).map List.length = [K, K, K, 5] ∧
    (chunkText K s).flatten = s ∧
    (∀ segs bs mime,
      seqOption ((chunkText K s).map backend) = some segs →
      gttsCore K backend s = some (bs, mime) →
      bs = segs.flatten ∧ bs.length = (segs.map List.length).sum) := by
  have hK0 : K ≠ 0 := by omega
  have hs0 : s ≠ [] := by
    intro h
    rw [h, List.length_nil] at hs
    omega
  have hl1 : (s.drop K).length = 2 * K + 5 := by
    rw [List.length_drop, hs]; omega
  have hs1 : s.drop K ≠ [] := by
    intro h
    rw [h, List.length_nil] at hl1
    omega
  have hl2 : ((s.drop K).drop K).length = K + 5 := by
    rw [List.length_drop, hl1]; omega
  have hs2 : (s.drop K).drop K ≠ [] := by
    intro h
    rw [h, List.length_nil] at hl2
    omega
  have hl3 : (((s.drop K).drop K).drop K).length = 5 := by
    rw [List.length_drop, hl2]; omega
  have hs3 : ((s.drop K).drop K).drop K ≠ [] := by
    intro h
    rw [h, List.length_nil] at hl3
    omega
  have hl4 : ((((s.drop K).drop K).drop K).drop K).length = 0 := by
    rw [List.length_drop, hl3]; omega
  have hchunk : chunkText K s =
      [s.take K, (s.drop K).take K, ((s.drop K).drop K).take K,
        ((s.drop K).drop K).drop K] := by
    rw [chunkText_step K s hK0 hs0, chunkText_step K _ hK0 hs1,
      chunkText_step K _ hK0 hs2, chunkText_step K _ hK0 hs3]
    have hlast : (((s.drop K).drop K).drop K).take K = ((s.drop K).drop K).drop K :=
      List.take_of_length_le (by omega)
    have hnil : chunkText K ((((s.drop K).drop K).drop K).drop K) = [] := by
      rw [List.eq_nil_of_length_eq_zero hl4]
      rfl
    rw [hlast, hnil]
  refine ⟨hchunk, ?_, ?_, ?_⟩
  · rw [hchunk]
    simp only [List.map_cons, List.map_nil, List.length_take, hs, hl1, hl2, hl3]
    have e1 : min K (3 * K + 5) = K := by omega
    have e2 : min K (2 * K + 5) = K := by omega
    have e3 : min K (K + 5) = K := by omega
    rw [e1, e2, e3]
  · rw [hchunk]
    simp only [List.flatten_cons, List.flatten_nil, List.append_nil,
      List.take_append_drop]
  · intro segs bs mime hseq hcore
    unfold gttsCore at hcore
    rw [hseq] at hcore
    by_cases hfl : segs.flatten = []
    · simp [hfl] at hcore
    · simp only [if_neg hfl, Option.some.injEq, Prod.mk.injEq] at hcore
      obtain ⟨hb, -⟩ := hcore
      subst hb
      exact ⟨rfl, List.length_flatten segs⟩

theorem chunking_roundtrip_witness :
    (5 : Nat) ≤ 5 ∧ (List.replicate 20 'a').length = 3 * 5 + 5 ∧
    ((chunkText 5 (List.replicate 20 'a')).map List.length = [5, 5, 5, 5] ∧
      (chunkText 5 (List.replicate 20 'a')).flatten = List.replicate 20 'a') :=
  ⟨le_refl 5, by decide,
    (chunking_roundtrip 5 (le_refl 5) (List.replicate 20 'a') (by decide)
      (fun _ => none)).2.1,
    (chunking_roundtrip 5 (le_refl 5) (List.replicate 20 'a') (by decide)
      (fun _ => none)).2.2.1⟩

/-- C10: a provider hint that is neither "auto" nor (case-insensitively)
one of the four recognized provider names is silently treated as "auto":
the selected adapter sequence is the full four-adapter fallback sequence
and the call behaves exactly as with hint "auto". -/
theorem unrecognized_hint_is_auto (B : Backends) (t : List Char) (lang : String)
    (h : String) (hh : pylower h ∉ recognizedHints) :
    synthesize B t lang (some h) = synthesize B t lang (some "auto") ∧
    adapterSeq B (pstrip t) (requestedOf (some h)) = adapterSeq B (pstrip t) "auto" := by
  have hr : adapterSeq B (pstrip t) (requestedOf (some h)) =
      adapterSeq B (pstrip t) "auto" := by
    by_cases h0 : h = ""
    · subst h0; rfl
    · rw [requestedOf_eq_pylower h0]
      simp only [recognizedHints, List.mem_cons, List.not_mem_nil, or_false,
        not_or] at hh
      exact adapterSeq_unrecognized B (pstrip t) (pylower h) hh.1 hh.2.1 hh.2.2.1 hh.2.2.2
  refine ⟨?_, hr⟩
  unfold synthesize synthesizeWith
  by_cases ht : pstrip t = []
  · rw [if_pos ht, if_pos ht]
  · rw [if_neg ht, if_neg ht,
      show requestedOf (some "auto") = "auto" from rfl, hr]

/-- C3: with hint "auto" the attempt sequence is exactly the fixed priority
order edge-tts (streaming neural), then ElevenLabs (premium cloud), then
gTTS (HTTP-chunked), then pyttsx3 (offline); adapters run in that order and
the first one to succeed terminates the sequence, its bytes and mime type
become the outcome's, `providerUsed` is its name, the log lists the
adapters attempted so far in order, and `isPlaceholder` is false. -/
theorem auto_order_first_success (B : Backends) (t : List Char) (lang : String)
    (ht : pstrip t ≠ [])
    (pre post : List (String × Option (Bytes × String))) (name : String)
    (bs : Bytes) (mime : String)
    (hsplit : adapterSeq B (pstrip t) "auto" =
      pre ++ (name, some (bs, mime)) :: post)
    (hpre : ∀ e ∈ pre, e.2 = none) :
    adapterSeq B (pstrip t) "auto" =
      [("edge_tts", (try_edge_tts B.edge).result),
       ("elevenlabs", try_elevenlabs B.elevenKey B.eleven),
       ("gtts", try_gtts B.gtts (pstrip t)),
       ("pyttsx3", try_pyttsx3 B.pyttsx3)] ∧
    synthesize B t lang (some "auto") =
      .ok bs mime name (pre.map Prod.fst ++ [name]) false := by
  refine ⟨rfl, ?_⟩
  unfold synthesize synthesizeWith
  rw [if_neg ht, show requestedOf (some "auto") = "auto" from rfl, hsplit,
    runSeq_first_success pre name bs mime post [] hpre]
  simp

theorem auto_order_first_success_witness :
    pstrip ['h', 'i'] ≠ [] ∧
    adapterSeq edgeFailBackends (pstrip ['h', 'i']) "auto" =
      [("edge_tts", none)] ++ ("elevenlabs", some ([7], "audio/mpeg")) ::
        [("gtts", none), ("pyttsx3", none)] ∧
    (adapterSeq edgeFailBackends (pstrip ['h', 'i']) "auto" =
      [("edge_tts", (try_edge_tts edgeFailBackends.edge).result),
       ("elevenlabs", try_elevenlabs edgeFailBackends.elevenKey edgeFailBackends.eleven),
       ("gtts", try_gtts edgeFailBackends.gtts (pstrip ['h', 'i'])),
       ("pyttsx3", try_pyttsx3 edgeFailBackends.pyttsx3)] ∧
    synthesize edgeFailBackends ['h', 'i'] "en" (some "auto") =
      .ok [7] "audio/mpeg" "elevenlabs"
        ([("edge_tts", (none : Option (Bytes × String)))].map Prod.fst ++ ["elevenlabs"])
        false) :=
  ⟨by decide, by decide,
    auto_order_first_success edgeFailBackends ['h', 'i'] "en" (by decide)
      [("edge_tts", none)] [("gtts", none), ("pyttsx3", none)]
      "elevenlabs" [7] "audio/mpeg" (by decide) (by decide)⟩

/-- C4: with hint "auto" and every adapter reporting `Absent`, the outcome
is the placeholder: provider "beep", `isPlaceholder` true, mime
"audio/wav", audio of length 44 + 2*22050 = 44144 bytes starting with the
44-byte header, whose fields declare 1 channel, sample rate 44100, 16 bits
per sample, a data-chunk size of `numSamples * 2` and a RIFF container
size of `36 + numSamples * 2`. -/
theorem all_absent_beep (B : Backends) (t : List Char) (lang : String)
    (ht : pstrip t ≠ [])
    (h1 : (try_edge_tts B.edge).result = none)
    (h2 : try_elevenlabs B.elevenKey B.eleven = none)
    (h3 : try_gtts B.gtts (pstrip t) = none)
    (h4 : try_pyttsx3 B.pyttsx3 = none) :
    synthesize B t lang (some "auto") =
      .ok beepBytes "audio/wav" "beep" autoNames true ∧
    beepBytes.length = 44 + 2 * 22050 ∧
    beepBytes.take 44 = wavHeader numSamples ∧
    (wavHeader numSamples).length = 44 ∧
    leVal (((wavHeader numSamples).drop 22).take 2) = 1 ∧
    leVal (((wavHeader numSamples).drop 24).take 4) = 44100 ∧
    leVal (((wavHeader numSamples).drop 34).take 2) = 16 ∧
    leVal (((wavHeader numSamples).drop 40).take 4) = numSamples * 2 ∧
    leVal (((wavHeader numSamples).drop 4).take 4) = 36 + numSamples * 2 := by
  refine ⟨?_, by rw [beepBytes_length], ?_, by decide, by decide, by decide,
    by decide, by decide, by decide⟩
  · unfold synthesize synthesizeWith
    rw [if_neg ht, show requestedOf (some "auto") = "auto" from rfl]
    have hall : ∀ e ∈ adapterSeq B (pstrip t) "auto", e.2 = none := by
      intro e he
      have : adapterSeq B (pstrip t) "auto" =
          [("edge_tts", (try_edge_tts B.edge).result),
           ("elevenlabs", try_elevenlabs B.elevenKey B.eleven),
           ("gtts", try_gtts B.gtts (pstrip t)),
           ("pyttsx3", try_pyttsx3 B.pyttsx3)] := rfl
      rw [this] at he
      simp only [List.mem_cons, List.not_mem_nil, or_false] at he
      rcases he with he | he | he | he
      · rw [he]; exact h1
      · rw [he]; exact h2
      · rw [he]; exact h3
      · rw [he]; exact h4
    rw [runSeq_all_none _ [] hall]
    have hmap : (adapterSeq B (pstrip t) "auto").map Prod.fst = autoNames := rfl
    rw [hmap]
    simp [autoNames]
  · unfold beepBytes
    rw [← wavHeader_length, List.take_left]

theorem all_absent_beep_witness :
    pstrip ['h', 'i'] ≠ [] ∧
    (try_edge_tts failingBackends.edge).result = none ∧
    try_elevenlabs failingBackends.elevenKey failingBackends.eleven = none ∧
    try_gtts failingBackends.gtts (pstrip ['h', 'i']) = none ∧
    try_pyttsx3 failingBackends.pyttsx3 = none ∧
    synthesize failingBackends ['h', 'i'] "en" (some "auto") =
      .ok beepBytes "audio/wav" "beep" autoNames true :=
  ⟨by decide, by decide, by decide, by decide, by decide,
    (all_absent_beep failingBackends ['h', 'i'] "en" (by decide) (by decide)
      (by decide) (by decide) (by decide)).1⟩

theorem unrecognized_hint_is_auto_witness :
    pylower "bogus" ∉ recognizedHints ∧
      (synthesize failingBackends ['h', 'i'] "en" (some "bogus") =
        synthesize failingBackends ['h', 'i'] "en" (some "auto") ∧
      adapterSeq failingBackends (pstrip ['h', 'i']) (requestedOf (some "bogus")) =
        adapterSeq failingBackends (pstrip ['h', 'i']) "auto") :=
  ⟨by decide, unrecognized_hint_is_auto failingBackends ['h', 'i'] "en" "bogus" (by decide)⟩

/-! ### The placeholder sample amplitudes: truncation, not rounding -/

lemma sin_sample_one_bounds :
    (2052.5 : ℝ) < 32767 * Real.sin (2 * Real.pi * 440 * ((1 : ℝ) / 44100)) ∧
    32767 * Real.sin (2 * Real.pi * 440 * ((1 : ℝ) / 44100)) < 2053 := by
  have hxeq : 2 * Real.pi * 440 * ((1 : ℝ) / 44100) = Real.pi * (880 / 44100) := by
    ring
  set x : ℝ := 2 * Real.pi * 440 * ((1 : ℝ) / 44100) with hxdef
  have hπl : (3.141592 : ℝ) < Real.pi := Real.pi_gt_d6
  have hπu : Real.pi < 3.141593 := Real.pi_lt_d6
  have hx_lo : (0.0626893 : ℝ) < x := by
    rw [hxeq]
    nlinarith [hπl]
  have hx_hi : x < 0.0626894 := by
    rw [hxeq]
    nlinarith [hπu]
  have hx_pos : (0 : ℝ) < x := lt_trans (by norm_num) hx_lo
  have hx_abs : |x| ≤ 1 := by
    rw [abs_of_pos hx_pos]
    linarith
  have hsb := Real.sin_bound hx_abs
  rw [abs_of_pos hx_pos] at hsb
  have hsb' := abs_le.mp hsb
  have hx3_hi : x ^ 3 < (0.0626894 : ℝ) ^ 3 :=
    pow_lt_pow_left₀ hx_hi (le_of_lt hx_pos) (by norm_num)
  have hx3_lo : (0.0626893 : ℝ) ^ 3 < x ^ 3 :=
    pow_lt_pow_left₀ hx_lo (by norm_num) (by norm_num)
  have hx4_hi : x ^ 4 < (0.0626894 : ℝ) ^ 4 :=
    pow_lt_pow_left₀ hx_hi (le_of_lt hx_pos) (by norm_num)
  constructor
  · nlinarith [hsb'.1, hx_lo, hx3_hi, hx4_hi]
  · nlinarith [hsb'.2, hx_hi, hx3_lo, hx4_hi]

lemma beepAmp_one_eq : beepAmp 1 = 2052 := by
  have hb := sin_sample_one_bounds
  unfold beepAmp pytrunc
  rw [Nat.cast_one]
  rw [if_pos (by linarith [hb.1] :
    (0 : ℝ) ≤ 32767 * Real.sin (2 * Real.pi * 440 * ((1 : ℝ) / 44100)))]
  rw [Int.floor_eq_iff]
  constructor
  · push_cast
    linarith [hb.1]
  · push_cast
    linarith [hb.2]

lemma round_sample_one_eq :
    round (32767 * Real.sin (2 * Real.pi * 440 * ((1 : ℝ) / 44100))) = 2053 := by
  have hb := sin_sample_one_bounds
  rw [round_eq, Int.floor_eq_iff]
  constructor
  · push_cast
    linarith [hb.1]
  · push_cast
    linarith [hb.2]

/-- C9 counterexample: the claimed amplitude formula uses `round`, but the
code computes `int(...)`, which truncates toward zero; at sample index 1
the code's amplitude is 2052 while `round(32767 * sin(2π·440·1/44100))` is
2053. -/
theorem beep_amp_not_round :
    beepAmp 1 ≠ round (32767 * Real.sin (2 * Real.pi * 440 * ((1 : ℝ) / 44100))) := by
  rw [beepAmp_one_eq, round_sample_one_eq]
  decide

lemma flatten_map_range' (f : Nat → Bytes) (hf : ∀ j, (f j).length = 2) :
    ∀ (n s i : Nat), i < n →
      ((((List.range' s n).map f).flatten).drop (2 * i)).take 2 = f (s + i) := by
  intro n
  induction n with
  | zero => intro s i hi; omega
  | succ m ih =>
    intro s i hi
    rw [List.range'_succ]
    obtain ⟨a, b, hab⟩ := List.length_eq_two.mp (hf s)
    match i with
    | 0 =>
      simp only [List.map_cons, List.flatten_cons, Nat.mul_zero, List.drop_zero]
      rw [hab, show f (s + 0) = ([a, b] : Bytes) from hab]
      rfl
    | i + 1 =>
      simp only [List.map_cons, List.flatten_cons]
      rw [hab, show 2 * (i + 1) = 2 * i + 1 + 1 from by ring,
        show ([a, b] : Bytes) ++ (((List.range' (s + 1) m).map f).flatten) =
          a :: b :: (((List.range' (s + 1) m).map f).flatten) from rfl,
        List.drop_succ_cons, List.drop_succ_cons,
        ih (s + 1) i (by omega)]
      congr 1
      omega

lemma beepBytes_sample_bytes (i : Nat) (h : i < numSamples) :
    (beepBytes.drop (44 + 2 * i)).take 2 = int16LE (beepAmp i) := by
  unfold beepBytes
  rw [show 44 + 2 * i = (wavHeader numSamples).length + 2 * i from by
    rw [wavHeader_length], List.drop_append, List.range_eq_range']
  have := flatten_map_range' (fun j => int16LE (beepAmp j)) (fun j => rfl)
    numSamples 0 i h
  simpa using this

/-- C9 amended: every placeholder-audio sample i in [0, 22050) has
amplitude `int(32767 * sin(2π·440·i/44100))`, i.e. the truncation toward
zero (not the rounding) of that value, and the two bytes at offsets
44 + 2i and 45 + 2i of the placeholder audio are its little-endian 16-bit
signed encoding. -/
theorem beep_sample_encoding (i : Nat) (h : i < numSamples) :
    (beepBytes.drop (44 + 2 * i)).take 2 = int16LE (beepAmp i) ∧
    beepAmp i = pytrunc (32767 * Real.sin (2 * Real.pi * 440 * ((i : ℝ) / 44100))) :=
  ⟨beepBytes_sample_bytes i h, rfl⟩

theorem beep_sample_encoding_witness :
    0 < numSamples ∧
    ((beepBytes.drop (44 + 2 * 0)).take 2 = int16LE (beepAmp 0) ∧
      beepAmp 0 = pytrunc (32767 * Real.sin (2 * Real.pi * 440 * ((0 : ℕ) : ℝ) / 44100))) :=
  ⟨by decide, (beep_sample_encoding 0 (by decide)).1, by
    have := (beep_sample_encoding 0 (by decide)).2
    simpa [mul_div_assoc] using this⟩

end TTS
